import Mathlib

/-!
Acquisitions: credential and session issuance

A shallow embedding of the services and utilities of the repository

* `src/services/auth.service.js`  (`hashPassword`, `comparePassword`,
  `authenticateUser`, `createUser`),
* `src/services/user.service.js`  (`getAllUsers`),
* `src/utils/jwt.js`              (`jwttoken.sign`, `jwttoken.verify`),
* `src/utils/cookies.js`          (`cookies.getOptions`, `cookies.set`, ...),

followed by the properties the specification states about them.

JavaScript values are a small sum type, objects are key/value lists, thrown
errors are the `error` side of `Except`, and every service function passes
the world (the user table and the trace of external calls) explicitly and
returns it on both the normal and the exceptional exit, so that what a
failing call did to the store can be stated.
-/

set_option autoImplicit false

namespace Acquisitions

/-! ## JavaScript values, objects and errors -/

/-- The JavaScript values that occur in user records, claims and cookie options. -/
inductive Value where
  | undefined
  | null
  | bool (b : Bool)
  | num (n : Int)
  | str (s : String)
  | date (t : Nat)
  deriving DecidableEq, Repr

/-- A plain JavaScript object: its own properties, as key/value pairs. -/
abbrev Obj := List (String × Value)

/-- Property read `o[k]`: `none` when `o` has no own property `k`. -/
def getProp : Obj → String → Option Value
  | [], _ => none
  | (k', v) :: rest, k => if k' = k then some v else getProp rest k

/-- The property names of an object. -/
def keys (o : Obj) : List String := o.map Prod.fst

/-- Rest destructuring `const { k: _, ...rest } = o`: every property but `k`. -/
def dropProp (o : Obj) (k : String) : Obj := o.filter (fun kv => decide (kv.1 ≠ k))

/-- Object spread `{ ...a, ...b }`: the properties of `b`, and those of `a`
that `b` does not define. -/
def spread (a b : Obj) : Obj :=
  a.filter (fun kv => (getProp b kv.1).isNone) ++ b

/-- A thrown JavaScript error: the constructor name and the message. -/
structure JsError where
  name : String
  message : String
  deriving DecidableEq, Repr

/-- The error built by `new Error(message)`. -/
def mkError (message : String) : JsError := ⟨"Error", message⟩

/-! ## The user table and the external collaborators -/

/-- Modelled from the spec: the `users` table of `models/user.model.js`, which
is absent from the sources; its columns are the ones the services name
(`id`, `name`, `email`, `password`, `role`, `createdAt`, `updatedAt`) and the
spec lists as the persisted layout. -/
structure UserRow where
  id : Nat
  name : String
  email : String
  password : String
  role : String
  createdAt : Nat
  updatedAt : Nat
  deriving DecidableEq, Repr

/-- The object a full `select()` yields for a row. -/
def UserRow.toObj (r : UserRow) : Obj :=
  [("id", .num r.id), ("name", .str r.name), ("email", .str r.email),
   ("password", .str r.password), ("role", .str r.role),
   ("createdAt", .date r.createdAt), ("updatedAt", .date r.updatedAt)]

/-- The three queries the services send to the store. -/
inductive DbOp where
  | selectByEmail
  | insert
  | selectAll
  deriving DecidableEq, Repr

/-- An observable call to a collaborator (store, hasher, logger). -/
inductive Event where
  | dbSelectByEmail (email : String)
  | dbInsert (name email password role : String)
  | dbSelectAll
  | bcryptHash (password : String) (rounds : Nat)
  | bcryptCompare (password hash : String)
  | logError (message : String) (error : JsError)
  deriving DecidableEq, Repr

/-- What the services depend on but do not define: the bcrypt library, the
failures the store may raise, and the process environment. -/
structure Env where
  /-- The call `bcrypt.hash(password, rounds)`. -/
  bcryptHash : String → Nat → Except JsError String
  /-- The call `bcrypt.compare(password, hash)`. -/
  bcryptCompare : String → String → Except JsError Bool
  /-- The error a store query raises, if it fails. -/
  dbError : DbOp → Option JsError
  /-- The variable `process.env.NODE_ENV`. -/
  NODE_ENV : Option String
  /-- The variable `process.env.JWT_SECRET`. -/
  JWT_SECRET : Option String
  /-- The keyed hash that signs a token: secret and payload to signature. -/
  hmac : String → Obj → String

/-- The state the services act on: the rows of the user table in storage
order, the next serial id, the store clock, and the trace of calls made. -/
structure World where
  rows : List UserRow
  nextId : Nat
  clock : Nat
  trace : List Event
  deriving DecidableEq, Repr

/-- Record a call in the trace. -/
def World.emit (w : World) (e : Event) : World := { w with trace := w.trace ++ [e] }

/-- A computation that may throw: its outcome and the world it leaves. -/
abbrev Js (α : Type) := Except JsError α × World

/-- The query `db.select().from(users).where(eq(users.email, email)).limit(1)`. -/
def dbSelectByEmail (env : Env) (w : World) (email : String) : Js (List UserRow) :=
  let w1 := w.emit (.dbSelectByEmail email)
  match env.dbError .selectByEmail with
  | some e => (.error e, w1)
  | none => (.ok ((w.rows.filter (fun r => decide (r.email = email))).take 1), w1)

/-- The query `db.insert(users).values(v).returning(id, name, email, role)`:
the row gets the next serial id and the current time in both timestamps. -/
def dbInsert (env : Env) (w : World) (name email password role : String) : Js (List Obj) :=
  let w1 := w.emit (.dbInsert name email password role)
  match env.dbError .insert with
  | some e => (.error e, w1)
  | none =>
    let row : UserRow :=
      { id := w.nextId, name := name, email := email, password := password, role := role,
        createdAt := w.clock, updatedAt := w.clock }
    (.ok [[("id", .num row.id), ("name", .str row.name), ("email", .str row.email),
           ("role", .str row.role)]],
     { w1 with rows := w.rows ++ [row], nextId := w.nextId + 1 })

/-- The query `db.select(id, name, email, role, createdAt, updatedAt).from(users)`. -/
def dbSelectAll (env : Env) (w : World) : Js (List Obj) :=
  let w1 := w.emit .dbSelectAll
  match env.dbError .selectAll with
  | some e => (.error e, w1)
  | none =>
    (.ok (w.rows.map (fun r =>
        [("id", .num r.id), ("name", .str r.name), ("email", .str r.email),
         ("role", .str r.role), ("createdAt", .date r.createdAt),
         ("updatedAt", .date r.updatedAt)])), w1)

/-! ## `services/auth.service.js` -/

/-- The function `hashPassword`: bcrypt with cost 10; a failure is logged and
replaced by the fixed error. -/
def hashPassword (env : Env) (w : World) (password : String) : Js String :=
  let w1 := w.emit (.bcryptHash password 10)
  match env.bcryptHash password 10 with
  | .ok h => (.ok h, w1)
  | .error e =>
    (.error (mkError "Error hashing password"), w1.emit (.logError "Error hashing password" e))

/-- The function `comparePassword`. -/
def comparePassword (env : Env) (w : World) (password hashedPassword : String) : Js Bool :=
  let w1 := w.emit (.bcryptCompare password hashedPassword)
  match env.bcryptCompare password hashedPassword with
  | .ok b => (.ok b, w1)
  | .error e =>
    (.error (mkError "Error comparing password"),
     w1.emit (.logError "Error comparing password" e))

/-- The `try` block of `authenticateUser`. -/
def authenticateUser_try (env : Env) (w : World) (email password : String) : Js Obj :=
  match dbSelectByEmail env w email with
  | (.error e, w1) => (.error e, w1)
  | (.ok found, w1) =>
    match found.head? with
    | none => (.error (mkError "Invalid credentials"), w1)
    | some existingUser =>
      match comparePassword env w1 password existingUser.password with
      | (.error e, w2) => (.error e, w2)
      | (.ok isPasswordValid, w2) =>
        if !isPasswordValid then (.error (mkError "Invalid credentials"), w2)
        else (.ok (dropProp existingUser.toObj "password"), w2)

/-- The function `authenticateUser`: the `catch` logs and re-throws the error
it caught. -/
def authenticateUser (env : Env) (w : World) (email password : String) : Js Obj :=
  match authenticateUser_try env w email password with
  | (.ok user, w1) => (.ok user, w1)
  | (.error e, w1) => (.error e, w1.emit (.logError "Error authenticating user" e))

/-- The argument of `createUser`; `role` is `none` when the caller omits it. -/
structure SignUp where
  name : String
  email : String
  password : String
  role : Option String
  deriving DecidableEq, Repr

/-- The `try` block of `createUser`; the default parameter `role = 'user'`
applies when the role is omitted. -/
def createUser_try (env : Env) (w : World) (input : SignUp) : Js (Option Obj) :=
  let role := input.role.getD "user"
  match dbSelectByEmail env w input.email with
  | (.error e, w1) => (.error e, w1)
  | (.ok existingUser, w1) =>
    if existingUser.length > 0 then
      (.error (mkError "User with this email already exists"), w1)
    else
      match hashPassword env w1 input.password with
      | (.error e, w2) => (.error e, w2)
      | (.ok hashedPassword, w2) =>
        match dbInsert env w2 input.name input.email hashedPassword role with
        | (.error e, w3) => (.error e, w3)
        | (.ok inserted, w3) => (.ok inserted.head?, w3)

/-- The function `createUser`: the `catch` logs whatever was thrown and throws
the fixed error `Error creating user` in its place. The result is `none` for
JavaScript's `undefined` (an empty `returning` list). -/
def createUser (env : Env) (w : World) (input : SignUp) : Js (Option Obj) :=
  match createUser_try env w input with
  | (.ok newUser, w1) => (.ok newUser, w1)
  | (.error e, w1) =>
    (.error (mkError "Error creating user"), w1.emit (.logError "Error creating user" e))

/-! ## `services/user.service.js` -/

/-- The function `getAllUsers`. -/
def getAllUsers (env : Env) (w : World) : Js (List Obj) :=
  match dbSelectAll env w with
  | (.ok users, w1) => (.ok users, w1)
  | (.error e, w1) =>
    (.error (mkError "Error getting all users"),
     w1.emit (.logError "Error getting all users" e))

/-! ## `utils/jwt.js` and the token library it calls -/

/-- A token string as the library parses it: the payload and signature of a
three-segment token, or text that is not one. -/
inductive Token where
  | signed (payload : Obj) (signature : String)
  | malformed (raw : String)
  deriving DecidableEq, Repr

/-- Milliseconds in the time unit of a span such as `1d`. -/
def msUnit : Char → Option Nat
  | 's' => some 1000
  | 'm' => some 60000
  | 'h' => some 3600000
  | 'd' => some 86400000
  | 'w' => some 604800000
  | _ => none

/-- The value of a list of decimal digits. -/
def digitsValue (ds : List Char) : Nat := ds.foldl (fun n c => 10 * n + (c.toNat - 48)) 0

/-- The milliseconds a span string stands for, for spans written as decimal
digits and one unit letter, the form of the constant `JWT_EXPIRES_IN`. -/
def ms (span : String) : Option Nat :=
  match span.toList.reverse with
  | [] => none
  | u :: ds =>
    if ds ≠ [] ∧ ds.all Char.isDigit = true then
      (msUnit u).map (fun m => digitsValue ds.reverse * m)
    else none

/-- Assignment `o[k] = v`: the value is replaced where `o` has the property,
and the property is added at the end where it has not. -/
def setProp : Obj → String → Value → Obj
  | [], k, v => [(k, v)]
  | (k', v') :: rest, k, v =>
    if k' = k then (k', v) :: rest else (k', v') :: setProp rest k v

/-- The decimal digits of `n`, padded with zeros to `width` characters. -/
def padDigits (width n : Nat) : String :=
  String.mk (List.replicate (width - (Nat.toDigits 10 n).length) '0' ++ Nat.toDigits 10 n)

/-- The method `Date.prototype.toISOString` for the time value `t`, in
milliseconds since the epoch: the civil date of the day, then the time of day;
years past 9999 are written with a sign and six digits. -/
def toISOString (t : Nat) : String :=
  let days := t / 86400000
  let rest := t % 86400000
  let z := days + 719468
  let era := z / 146097
  let doe := z % 146097
  let yoe := (doe - doe / 1460 + doe / 36524 - doe / 146096) / 365
  let doy := doe - (365 * yoe + yoe / 4 - yoe / 100)
  let mp := (5 * doy + 2) / 153
  let day := doy - (153 * mp + 2) / 5 + 1
  let month := if mp < 10 then mp + 3 else mp - 9
  let year := yoe + era * 400 + (if month ≤ 2 then 1 else 0)
  (if year ≤ 9999 then padDigits 4 year else "+" ++ padDigits 6 year) ++ "-" ++
    padDigits 2 month ++ "-" ++ padDigits 2 day ++ "T" ++
    padDigits 2 (rest / 3600000) ++ ":" ++ padDigits 2 (rest % 3600000 / 60000) ++ ":" ++
    padDigits 2 (rest % 60000 / 1000) ++ "." ++ padDigits 3 (rest % 1000) ++ "Z"

/-- What a property value is after `JSON.stringify` and `JSON.parse`: `none`
when the property is left out. A property whose value is `undefined` is left
out; a date (its time value read as milliseconds since the epoch) becomes its
ISO string, or `null` past the range of dates; other values are kept. -/
def jsonValue : Value → Option Value
  | .undefined => none
  | .null => some .null
  | .bool b => some (.bool b)
  | .num n => some (.num n)
  | .str s => some (.str s)
  | .date t => if t ≤ 8640000000000000 then some (.str (toISOString t)) else some .null

/-- An object after `JSON.stringify` and `JSON.parse`. -/
def jsonObj (o : Obj) : Obj :=
  o.filterMap (fun kv => (jsonValue kv.2).map (fun v => (kv.1, v)))

/-- The number of binary digits of `a`, by halving at most `fuel` times. -/
def bitLengthAux : Nat → Nat → Nat
  | 0, _ => 0
  | fuel + 1, a => if a = 0 then 0 else bitLengthAux fuel (a / 2) + 1

/-- The number a double holds for the integer `n`: `n` itself below `2^53` in
magnitude, and otherwise `n` rounded to 53 significant binary digits, ties to
the even neighbour (for the magnitudes a double can hold). -/
def roundDouble (n : Int) : Int :=
  let a := n.natAbs
  if a < 2 ^ 53 then n
  else
    let e := bitLengthAux a a - 53
    let q := a / 2 ^ e
    let r := a % 2 ^ e
    let up := decide (2 * r > 2 ^ e) || (decide (2 * r = 2 ^ e) && decide (q % 2 = 1))
    let m := (if up then q + 1 else q) * 2 ^ e
    if n < 0 then -(m : Int) else (m : Int)

/-- The expression `payload.iat || Math.floor(Date.now() / 1000)` of
`jwt.sign`, for a payload whose `iat`, if any, is a number: the payload's own
`iat` unless it is absent or zero, and then the current time. -/
def issuedAt (payload : Obj) (now : Nat) : Int :=
  match getProp payload "iat" with
  | some (.num n) => if n = 0 then (now : Int) else n
  | _ => (now : Int)

/-- Whether a registered time claim, when the payload has it, is a number. -/
def isNumberClaim (payload : Obj) (k : String) : Bool :=
  match getProp payload k with
  | none => true
  | some (.num _) => true
  | some _ => false

/-- External library, modelled from its documented behaviour: the call
`jwt.sign(payload, secret, { expiresIn })` of `jsonwebtoken` on an object
payload at time `now` (seconds). The registered time claims are validated; the
payload is copied by `Object.assign({}, payload)`, an assignment property by
property, which the property `__proto__` does not survive; a payload with
`exp` is refused; `iat` is set to `issuedAt`, `exp` to `iat` plus the span, a
sum of doubles; the result is serialised as JSON and signed with the secret.
The token carries what the JSON text decodes to. -/
def jwtSign (hmac : String → Obj → String) (payload : Obj) (secret expiresIn : String)
    (now : Nat) : Except JsError Token :=
  if secret = "" then .error (mkError "secretOrPrivateKey must have a value")
  else if !isNumberClaim payload "iat" then
    .error (mkError "\"iat\" should be a number of seconds")
  else if !isNumberClaim payload "exp" then
    .error (mkError "\"exp\" should be a number of seconds")
  else if !isNumberClaim payload "nbf" then
    .error (mkError "\"nbf\" should be a number of seconds")
  else
    let copy := dropProp payload "__proto__"
    if (getProp copy "exp").isSome then
      .error (mkError
        "Bad \"options.expiresIn\" option the payload already has an \"exp\" property.")
    else
      let timestamp : Int := issuedAt copy now
      match ms expiresIn with
      | none =>
        .error (mkError ("\"expiresIn\" should be a number of seconds or string " ++
          "representing a timespan eg: \"1d\", \"20h\", 60"))
      | some millis =>
        let body := setProp (setProp copy "iat" (.num timestamp))
          "exp" (.num (roundDouble (timestamp + ((millis / 1000 : Nat) : Int))))
        .ok (.signed (jsonObj body) (hmac secret (jsonObj body)))

/-- External library, modelled from its documented behaviour: the call
`jwt.verify(token, secret)` of `jsonwebtoken` at time `now` (seconds): the
token must parse, carry the signature the secret gives its payload, be
active (`nbf`) and not be expired (`exp`); the decoded payload is returned. -/
def jwtVerify (hmac : String → Obj → String) (token : Token) (secret : String)
    (now : Nat) : Except JsError Obj :=
  match token with
  | .malformed _ => .error ⟨"JsonWebTokenError", "jwt malformed"⟩
  | .signed payload signature =>
    if secret = "" then .error ⟨"JsonWebTokenError", "secret or public key must be provided"⟩
    else if signature ≠ hmac secret payload then
      .error ⟨"JsonWebTokenError", "invalid signature"⟩
    else
      let notBefore : Except JsError Unit :=
        match getProp payload "nbf" with
        | none => .ok ()
        | some .undefined => .ok ()
        | some (.num n) =>
          if n > (now : Int) then .error ⟨"NotBeforeError", "jwt not active"⟩ else .ok ()
        | some _ => .error ⟨"JsonWebTokenError", "invalid nbf value"⟩
      let notExpired : Except JsError Unit :=
        match getProp payload "exp" with
        | none => .ok ()
        | some .undefined => .ok ()
        | some (.num n) =>
          if (now : Int) ≥ n then .error ⟨"TokenExpiredError", "jwt expired"⟩ else .ok ()
        | some _ => .error ⟨"JsonWebTokenError", "invalid exp value"⟩
      match notBefore with
      | .error e => .error e
      | .ok _ =>
        match notExpired with
        | .error e => .error e
        | .ok _ => .ok payload

/-- The constant `JWT_SECRET`: the environment variable, or the fallback
literal when the variable is unset or empty. -/
def JWT_SECRET (env : Env) : String :=
  match env.JWT_SECRET with
  | some s => if s = "" then "secret-to-change-in-production" else s
  | none => "secret-to-change-in-production"

/-- The constant `JWT_EXPIRES_IN`. -/
def JWT_EXPIRES_IN : String := "1d"

/-- The function `jwttoken.sign`, called at time `now`. -/
def jwttoken.sign (env : Env) (w : World) (payload : Obj) (now : Nat) : Js Token :=
  match jwtSign env.hmac payload (JWT_SECRET env) JWT_EXPIRES_IN now with
  | .ok token => (.ok token, w)
  | .error e => (.error (mkError "Failed to sign JWT"), w.emit (.logError "Failed to sign JWT" e))

/-- The function `jwttoken.verify`, called at time `now`. -/
def jwttoken.verify (env : Env) (w : World) (token : Token) (now : Nat) : Js Obj :=
  match jwtVerify env.hmac token (JWT_SECRET env) now with
  | .ok claims => (.ok claims, w)
  | .error e =>
    (.error (mkError "Failed to verify JWT"), w.emit (.logError "Failed to verify JWT" e))

/-! ## `utils/cookies.js` -/

/-- The outgoing response, as far as cookies go: the cookies set on it, each
with its options, and the names cleared. -/
structure Response where
  setCookies : List (String × Value × Obj)
  clearedCookies : List String
  deriving DecidableEq, Repr

/-- The incoming request: its parsed cookies. -/
structure Request where
  cookies : Obj
  deriving DecidableEq, Repr

/-- The framework call `res.cookie(name, value, options)`. -/
def Response.cookie (res : Response) (name : String) (value : Value) (options : Obj) :
    Response :=
  { res with setCookies := res.setCookies ++ [(name, value, options)] }

/-- The framework call `res.clearCookie(name)`. -/
def Response.clearCookie (res : Response) (name : String) : Response :=
  { res with clearedCookies := res.clearedCookies ++ [name] }

/-- The function `cookies.getOptions`. -/
def cookies.getOptions (env : Env) : Obj :=
  [("httpOnly", .bool true),
   ("secure", .bool (decide (env.NODE_ENV = some "production"))),
   ("maxAge", .num (15 * 60 * 1000)),
   ("sameSite", .str "strict")]

/-- The function `cookies.set`; `options` is `none` when the caller passes no
overrides (spreading `undefined` adds nothing). -/
def cookies.set (env : Env) (res : Response) (name : String) (value : Value)
    (options : Option Obj) : Response :=
  res.cookie name value (spread (cookies.getOptions env) (options.getD []))

/-- The function `cookies.get`. -/
def cookies.get (req : Request) (name : String) : Option Value := getProp req.cookies name

/-- The function `cookies.clear`. -/
def cookies.clear (res : Response) (name : String) : Response := res.clearCookie name

/-! ## Sample data -/

/-- A hasher for examples: the hash of `p` is `p` behind a fixed tag. -/
def sampleEnv : Env where
  bcryptHash := fun p _ => .ok ("$2b$10$" ++ p)
  bcryptCompare := fun p h => .ok (decide (h = "$2b$10$" ++ p))
  dbError := fun _ => none
  NODE_ENV := none
  JWT_SECRET := none
  hmac := fun secret payload => secret ++ "|" ++ String.intercalate "," (keys payload)

/-- The empty store. -/
def emptyWorld : World := { rows := [], nextId := 1, clock := 0, trace := [] }

/-- A sign-up for examples. -/
def sampleSignUp : SignUp := { name := "A", email := "a@x.com", password := "secret1", role := none }

/-- The store after the sample sign-up. -/
def sampleWorld : World := (createUser sampleEnv emptyWorld sampleSignUp).2

/-- The record the store's lookup by email returns: the first stored record
with that email. -/
def lookupByEmail (w : World) (email : String) : Option UserRow :=
  w.rows.find? (fun r => decide (r.email = email))

/-- Whether an event is a call of the password hasher. -/
def Event.isHash : Event → Bool
  | .bcryptHash _ _ => true
  | _ => false

/-- Whether an event is an insert into the user table. -/
def Event.isInsert : Event → Bool
  | .dbInsert _ _ _ _ => true
  | _ => false

/-- The number of stored records with a given email. -/
def countEmail (w : World) (email : String) : Nat :=
  w.rows.countP (fun r => decide (r.email = email))

/-- The row `createUser` stores for an input whose password hashed to `h`. -/
def newRow (w : World) (input : SignUp) (h : String) : UserRow :=
  { id := w.nextId, name := input.name, email := input.email, password := h,
    role := input.role.getD "user", createdAt := w.clock, updatedAt := w.clock }

/-- Modelled from the spec: the bcrypt library is not part of the repository;
of its hash the spec states, among the testable properties, that the output
never equals the plaintext input. -/
def hashNeverPlaintext (env : Env) : Prop :=
  ∀ (p : String) (rounds : Nat) (h : String), env.bcryptHash p rounds = .ok h → h ≠ p

/-- The expiry `jwt.sign` gives a token for the claims `c` signed at `now`:
one day, in seconds, after its `iat`. -/
def expiresAt (c : Obj) (now : Nat) : Int := roundDouble (issuedAt c now + 86400)

/-- The payload of the token `jwttoken.sign` issues for the claims `c` at
time `now`. -/
def issuedPayload (c : Obj) (now : Nat) : Obj :=
  jsonObj (setProp (setProp (dropProp c "__proto__") "iat" (.num (issuedAt c now)))
    "exp" (.num (expiresAt c now)))

/-! ## Objects -/

theorem getProp_dropProp (o : Obj) (k j : String) :
    getProp (dropProp o k) j = if j = k then none else getProp o j := by
  induction o with
  | nil => simp [dropProp, getProp]
  | cons kv rest ih =>
    obtain ⟨k', v⟩ := kv
    unfold dropProp at ih ⊢
    by_cases hk : k' = k
    · subst hk
      by_cases hj : j = k'
      · subst hj; simpa [List.filter, getProp] using ih
      · have hj' : ¬ k' = j := fun h => hj h.symm
        simpa [List.filter, getProp, hj, hj'] using ih
    · by_cases hj : k' = j
      · subst hj; simp [List.filter, getProp, hk]
      · simpa [List.filter, getProp, hk, hj] using ih

theorem getProp_append (a b : Obj) (k : String) :
    getProp (a ++ b) k = (getProp a k).orElse (fun _ => getProp b k) := by
  induction a with
  | nil => simp [getProp]
  | cons kv rest ih =>
    obtain ⟨k', v⟩ := kv
    by_cases hk : k' = k
    · simp [getProp, hk]
    · simpa [getProp, hk] using ih

theorem getProp_filter_none (a : Obj) (p : String → Bool) (k : String) (hp : p k = false) :
    getProp (a.filter (fun kv => p kv.1)) k = none := by
  induction a with
  | nil => simp [getProp]
  | cons kv rest ih =>
    obtain ⟨k', v⟩ := kv
    by_cases hk : k' = k
    · subst hk; simpa [List.filter, hp] using ih
    · cases hpk : p k'
      · simpa [List.filter, hpk] using ih
      · simpa [List.filter, hpk, getProp, hk] using ih

theorem getProp_filter_keep (a : Obj) (p : String → Bool) (k : String) (hp : p k = true) :
    getProp (a.filter (fun kv => p kv.1)) k = getProp a k := by
  induction a with
  | nil => simp [getProp]
  | cons kv rest ih =>
    obtain ⟨k', v⟩ := kv
    by_cases hk : k' = k
    · subst hk; simp [List.filter, hp, getProp]
    · cases hpk : p k'
      · simpa [List.filter, hpk, getProp, hk] using ih
      · simpa [List.filter, hpk, getProp, hk] using ih

/-- Spread is a key-wise merge in which the second object wins. -/
theorem getProp_spread (a b : Obj) (k : String) :
    getProp (spread a b) k =
      match getProp b k with
      | some v => some v
      | none => getProp a k := by
  unfold spread
  rw [getProp_append]
  cases hb : getProp b k with
  | none =>
    rw [getProp_filter_keep a (fun j => (getProp b j).isNone) k (by simp [hb])]
    cases getProp a k <;> simp [Option.orElse]
  | some v =>
    rw [getProp_filter_none a (fun j => (getProp b j).isNone) k (by simp [hb])]
    simp [Option.orElse]

theorem spread_nil (a : Obj) : spread a [] = a := by
  simp [spread, getProp]

theorem key_ne_of_getProp_none (a : Obj) (k : String) (h : getProp a k = none) :
    ∀ kv ∈ a, kv.1 ≠ k := by
  induction a with
  | nil => simp
  | cons kv rest ih =>
    obtain ⟨k', v'⟩ := kv
    have hk : ¬ k' = k := by
      intro hk; simp [getProp, hk] at h
    have hrest : getProp rest k = none := by simpa [getProp, hk] using h
    intro x hx
    rcases List.mem_cons.mp hx with e | e
    · subst e; exact hk
    · exact ih hrest x e

/-- Adding a property an object lacks appends it. -/
theorem spread_singleton_of_none (a : Obj) (k : String) (v : Value)
    (h : getProp a k = none) : spread a [(k, v)] = a ++ [(k, v)] := by
  unfold spread
  congr 1
  rw [List.filter_eq_self]
  intro kv hkv
  have hne : ¬ k = kv.1 := fun e => key_ne_of_getProp_none a k h kv hkv e.symm
  simp [getProp, hne]

/-! ## The store lookup -/

theorem head_take_filter (rows : List UserRow) (p : UserRow → Bool) :
    ((rows.filter p).take 1).head? = rows.find? p := by
  induction rows with
  | nil => simp
  | cons r rest ih =>
    cases hp : p r
    · simpa [List.filter, List.find?, hp] using ih
    · simp [List.filter, List.find?, hp]

theorem lookupByEmail_none (w : World) (email : String)
    (h : ∀ r ∈ w.rows, r.email ≠ email) : lookupByEmail w email = none := by
  unfold lookupByEmail
  simp only [List.find?_eq_none]
  intro r hr
  simpa using h r hr

theorem lookupByEmail_some_mem (w : World) (email : String) (r : UserRow)
    (h : lookupByEmail w email = some r) : r ∈ w.rows ∧ r.email = email := by
  unfold lookupByEmail at h
  exact ⟨List.mem_of_find?_eq_some h, by simpa using List.find?_some h⟩

/-- With unique emails, the lookup by a stored record's email returns that
record. -/
theorem lookupByEmail_of_unique (w : World) (u : UserRow) (hu : u ∈ w.rows)
    (huniq : w.rows.Pairwise (fun a b => a.email ≠ b.email)) :
    lookupByEmail w u.email = some u := by
  unfold lookupByEmail
  generalize w.rows = rows at hu huniq
  induction rows with
  | nil => simp at hu
  | cons r rest ih =>
    rw [List.pairwise_cons] at huniq
    rcases List.mem_cons.mp hu with h | h
    · subst h; simp [List.find?]
    · have hne : r.email ≠ u.email := huniq.1 u h
      simp only [List.find?, hne, decide_False]
      exact ih h huniq.2

/-! ## Sign-in, step by step -/

/-- The outcome of `authenticateUser` when the store answers the lookup. -/
theorem authenticateUser_try_eq (env : Env) (w : World) (email password : String)
    (hdb : env.dbError .selectByEmail = none) :
    authenticateUser_try env w email password =
      match lookupByEmail w email with
      | none => (.error (mkError "Invalid credentials"), w.emit (.dbSelectByEmail email))
      | some existingUser =>
        match comparePassword env (w.emit (.dbSelectByEmail email)) password
            existingUser.password with
        | (.error e, w2) => (.error e, w2)
        | (.ok isPasswordValid, w2) =>
          if !isPasswordValid then (.error (mkError "Invalid credentials"), w2)
          else (.ok (dropProp existingUser.toObj "password"), w2) := by
  unfold authenticateUser_try dbSelectByEmail lookupByEmail
  simp only [hdb, head_take_filter]

/-! ## Sign-up on a registered email -/

theorem select_nonempty (rows : List UserRow) (p : UserRow → Bool)
    (h : ∃ r ∈ rows, p r = true) : ((rows.filter p).take 1).length > 0 := by
  obtain ⟨r, hr, hp⟩ := h
  have hmem : r ∈ rows.filter p := List.mem_filter.mpr ⟨hr, hp⟩
  cases hf : rows.filter p with
  | nil => rw [hf] at hmem; simp at hmem
  | cons a rest => simp

theorem select_empty (rows : List UserRow) (p : UserRow → Bool)
    (h : ∀ r ∈ rows, p r = false) : (rows.filter p).take 1 = [] := by
  have hf : rows.filter p = [] := by
    rw [List.filter_eq_nil_iff]
    intro r hr
    simp [h r hr]
  simp [hf]

/-- On a registered email `createUser` stops after the lookup: whatever was
thrown in the `try` block is logged and `Error creating user` is thrown. -/
theorem createUser_registered (env : Env) (w : World) (input : SignUp)
    (hdup : ∃ r ∈ w.rows, r.email = input.email) :
    ∃ e, createUser env w input =
      (.error (mkError "Error creating user"),
       (w.emit (.dbSelectByEmail input.email)).emit (.logError "Error creating user" e)) := by
  have hlen : ((w.rows.filter (fun r => decide (r.email = input.email))).take 1).length > 0 :=
    select_nonempty w.rows _ (by
      obtain ⟨r, hr, he⟩ := hdup
      exact ⟨r, hr, by simpa using he⟩)
  unfold createUser createUser_try dbSelectByEmail
  cases hdb : env.dbError .selectByEmail with
  | some e => exact ⟨e, rfl⟩
  | none =>
    refine ⟨mkError "User with this email already exists", ?_⟩
    simp only [hlen, if_true]

/-! ## Claims on sign-in and sign-up errors -/

/-- C1: when the store answers the lookup, `authenticateUser` fails with the
error `Invalid credentials` both when no stored record has the email and when
the record found has a hash that `bcrypt.compare` rejects for the password:
the two failures are the same error value. -/
theorem authenticateUser_same_error (env : Env) (w : World) (email password : String)
    (hdb : env.dbError .selectByEmail = none) :
    ((∀ r ∈ w.rows, r.email ≠ email) →
      (authenticateUser env w email password).1 = .error (mkError "Invalid credentials")) ∧
    (∀ u, lookupByEmail w email = some u →
      env.bcryptCompare password u.password = .ok false →
      (authenticateUser env w email password).1 = .error (mkError "Invalid credentials")) := by
  constructor
  · intro hno
    unfold authenticateUser
    rw [authenticateUser_try_eq env w email password hdb, lookupByEmail_none w email hno]
  · intro u hu hcmp
    unfold authenticateUser
    rw [authenticateUser_try_eq env w email password hdb, hu]
    simp [comparePassword, hcmp]

/-- C1, at an instance: an unknown email and a wrong password for a known one
give the same error. -/
theorem authenticateUser_same_error_witness :
    (authenticateUser sampleEnv sampleWorld "nobody@x.com" "secret1").1
        = .error (mkError "Invalid credentials") ∧
    (authenticateUser sampleEnv sampleWorld "a@x.com" "wrong").1
        = .error (mkError "Invalid credentials") :=
  ⟨(authenticateUser_same_error sampleEnv sampleWorld "nobody@x.com" "secret1" rfl).1
      (by decide),
   (authenticateUser_same_error sampleEnv sampleWorld "a@x.com" "wrong" rfl).2
      { id := 1, name := "A", email := "a@x.com", password := "$2b$10$secret1",
        role := "user", createdAt := 0, updatedAt := 0 } rfl rfl⟩

/-- C2: signing up the sample user a second time, `createUser` throws
`Error creating user`; the error `User with this email already exists`, thrown
inside the `try` block, only reaches the log. -/
theorem createUser_duplicate_message :
    (createUser sampleEnv sampleWorld sampleSignUp).1
        = .error (mkError "Error creating user") ∧
    (createUser sampleEnv sampleWorld sampleSignUp).1
        ≠ .error (mkError "User with this email already exists") ∧
    (createUser sampleEnv sampleWorld sampleSignUp).2.trace.getLast?
        = some (.logError "Error creating user"
            (mkError "User with this email already exists")) := by
  refine ⟨rfl, ?_, rfl⟩
  have h : (createUser sampleEnv sampleWorld sampleSignUp).1
      = .error (mkError "Error creating user") := rfl
  rw [h]
  intro hc
  injection hc with hc
  revert hc
  decide

/-- C3: on a registered email `createUser` leaves the user table as it was
(same rows, same next id, same number of records with that email), and the
calls it adds to the trace are the lookup and the logger only: no insert, no
call of the hasher. -/
theorem createUser_registered_frame (env : Env) (w : World) (input : SignUp)
    (hdup : ∃ r ∈ w.rows, r.email = input.email) :
    (createUser env w input).2.rows = w.rows ∧
    (createUser env w input).2.nextId = w.nextId ∧
    countEmail (createUser env w input).2 input.email = countEmail w input.email ∧
    (∃ e, (createUser env w input).2.trace =
      w.trace ++ [.dbSelectByEmail input.email, .logError "Error creating user" e]) ∧
    (∀ e ∈ (createUser env w input).2.trace.drop w.trace.length,
      e.isInsert = false ∧ e.isHash = false) := by
  obtain ⟨e, he⟩ := createUser_registered env w input hdup
  rw [he]
  refine ⟨rfl, rfl, rfl, ⟨e, by simp [World.emit]⟩, ?_⟩
  intro x hx
  simp [World.emit] at hx
  rcases hx with hx | hx <;> subst hx <;> exact ⟨rfl, rfl⟩

/-- C3, at an instance: the second sample sign-up changes no row. -/
theorem createUser_registered_frame_witness :
    (createUser sampleEnv sampleWorld sampleSignUp).2.rows = sampleWorld.rows ∧
    (∀ e ∈ (createUser sampleEnv sampleWorld sampleSignUp).2.trace.drop
        sampleWorld.trace.length, e.isInsert = false ∧ e.isHash = false) :=
  have h := createUser_registered_frame sampleEnv sampleWorld sampleSignUp
    ⟨{ id := 1, name := "A", email := "a@x.com", password := "$2b$10$secret1",
       role := "user", createdAt := 0, updatedAt := 0 }, by decide, rfl⟩
  ⟨h.1, h.2.2.2.2⟩

/-! ## Sign-up on a fresh email, and sign-in after it -/

/-- On a fresh email, when the store and the hasher answer, `createUser`
makes three calls (lookup, hash, insert), appends the new row and returns its
four public columns. -/
theorem createUser_fresh (env : Env) (w : World) (input : SignUp) (h : String)
    (hfresh : ∀ r ∈ w.rows, r.email ≠ input.email)
    (hsel : env.dbError .selectByEmail = none) (hins : env.dbError .insert = none)
    (hhash : env.bcryptHash input.password 10 = .ok h) :
    createUser env w input =
      (.ok (some [("id", .num w.nextId), ("name", .str input.name),
                  ("email", .str input.email), ("role", .str (input.role.getD "user"))]),
       { rows := w.rows ++ [newRow w input h], nextId := w.nextId + 1, clock := w.clock,
         trace := w.trace ++ [.dbSelectByEmail input.email, .bcryptHash input.password 10,
           .dbInsert input.name input.email h (input.role.getD "user")] }) := by
  have hemp : (w.rows.filter (fun r => decide (r.email = input.email))).take 1 = [] :=
    select_empty w.rows _ (fun r hr => by simpa using hfresh r hr)
  unfold createUser createUser_try dbSelectByEmail hashPassword dbInsert
  simp [hsel, hins, hhash, hemp, World.emit, newRow]

theorem lookupByEmail_append_fresh (rows : List UserRow) (r : UserRow)
    (hfresh : ∀ x ∈ rows, x.email ≠ r.email) :
    (rows ++ [r]).find? (fun x => decide (x.email = r.email)) = some r := by
  induction rows with
  | nil => simp [List.find?]
  | cons a rest ih =>
    have ha : a.email ≠ r.email := hfresh a (List.mem_cons_self a rest)
    simp only [List.cons_append, List.find?, ha, decide_False]
    exact ih (fun x hx => hfresh x (List.mem_cons_of_mem a hx))

theorem sampleEnv_hashNeverPlaintext : hashNeverPlaintext sampleEnv := by
  intro p rounds h hh e
  have hh2 : h = "$2b$10$" ++ p := by
    simp only [sampleEnv] at hh
    injection hh with hh
    exact hh.symm
  rw [e] at hh2
  have hlen := congrArg String.length hh2
  simp only [String.length_append] at hlen
  have h7 : "$2b$10$".length = 7 := by decide
  omega

/-- C9: on an email that is not registered, when the store and the hasher
answer, and for a hasher whose output never equals its input, `createUser`
appends exactly one row, with the given name and email, the hasher's output
`h` as password, which is not the plaintext, the given role or `user`, and
returns that row's `id, name, email, role` and nothing else; one insert is
made. -/
theorem createUser_inserts_record (env : Env) (w : World) (input : SignUp) (h : String)
    (hspec : hashNeverPlaintext env)
    (hfresh : ∀ r ∈ w.rows, r.email ≠ input.email)
    (hsel : env.dbError .selectByEmail = none) (hins : env.dbError .insert = none)
    (hhash : env.bcryptHash input.password 10 = .ok h) :
    (createUser env w input).2.rows =
      w.rows ++ [{ id := w.nextId, name := input.name, email := input.email, password := h,
                   role := (match input.role with | some r => r | none => "user"),
                   createdAt := w.clock, updatedAt := w.clock }] ∧
    (∀ r ∈ (createUser env w input).2.rows.drop w.rows.length,
      r.password ≠ input.password) ∧
    ((createUser env w input).2.trace.drop w.trace.length).countP Event.isInsert = 1 ∧
    (createUser env w input).1 =
      .ok (some [("id", .num w.nextId), ("name", .str input.name),
                 ("email", .str input.email),
                 ("role", .str (match input.role with | some r => r | none => "user"))]) := by
  have hne : h ≠ input.password := hspec input.password 10 h hhash
  rw [createUser_fresh env w input h hfresh hsel hins hhash]
  have hrole : input.role.getD "user" = (match input.role with | some r => r | none => "user") := by
    cases input.role <;> rfl
  refine ⟨by simp [newRow, hrole], ?_, ?_, by simp [hrole]⟩
  · intro r hr
    simp only [List.drop_left, List.mem_singleton] at hr
    subst hr
    exact hne
  · simp only [List.drop_left]
    rfl

/-- C9, at an instance: the sample sign-up on the empty store. -/
theorem createUser_inserts_record_witness :
    (createUser sampleEnv emptyWorld sampleSignUp).2.rows =
      [{ id := 1, name := "A", email := "a@x.com", password := "$2b$10$secret1",
         role := "user", createdAt := 0, updatedAt := 0 }] ∧
    (∀ r ∈ (createUser sampleEnv emptyWorld sampleSignUp).2.rows.drop 0,
      r.password ≠ "secret1") ∧
    (createUser sampleEnv emptyWorld sampleSignUp).1 =
      .ok (some [("id", .num 1), ("name", .str "A"), ("email", .str "a@x.com"),
                 ("role", .str "user")]) :=
  have h := createUser_inserts_record sampleEnv emptyWorld sampleSignUp "$2b$10$secret1"
    sampleEnv_hashNeverPlaintext (by decide) rfl rfl rfl
  ⟨h.1, h.2.1, h.2.2.2⟩

/-- C4: on an email that is not registered, when the store answers, the
hasher returns a hash `h` for the password and `bcrypt.compare` accepts the
password against `h`, `createUser` succeeds and `authenticateUser` with the same
email and password on the resulting store succeeds; the user it returns has
the email and name signed up with and no `password` property. (That the other
stored emails be unique is not needed.) -/
theorem signUp_then_signIn (env : Env) (w : World) (input : SignUp) (h : String)
    (hfresh : ∀ r ∈ w.rows, r.email ≠ input.email)
    (hsel : env.dbError .selectByEmail = none) (hins : env.dbError .insert = none)
    (hhash : env.bcryptHash input.password 10 = .ok h)
    (hcmp : env.bcryptCompare input.password h = .ok true) :
    (∃ created, (createUser env w input).1 = .ok (some created)) ∧
    ∃ user,
      (authenticateUser env (createUser env w input).2 input.email input.password).1
        = .ok user ∧
      getProp user "email" = some (.str input.email) ∧
      getProp user "name" = some (.str input.name) ∧
      getProp user "password" = none := by
  rw [createUser_fresh env w input h hfresh hsel hins hhash]
  refine ⟨⟨_, rfl⟩, dropProp (newRow w input h).toObj "password", ?_, rfl, rfl, rfl⟩
  unfold authenticateUser
  rw [authenticateUser_try_eq _ _ _ _ hsel]
  have hl : lookupByEmail
      { rows := w.rows ++ [newRow w input h], nextId := w.nextId + 1, clock := w.clock,
        trace := w.trace ++ [.dbSelectByEmail input.email, .bcryptHash input.password 10,
          .dbInsert input.name input.email h (input.role.getD "user")] } input.email
      = some (newRow w input h) :=
    lookupByEmail_append_fresh w.rows (newRow w input h) hfresh
  rw [hl]
  have hp : (newRow w input h).password = h := rfl
  simp [comparePassword, hp, hcmp]

/-- C4, at an instance: the sample sign-up, then sign-in with its credentials. -/
theorem signUp_then_signIn_witness :
    ∃ user,
      (authenticateUser sampleEnv (createUser sampleEnv emptyWorld sampleSignUp).2
        "a@x.com" "secret1").1 = .ok user ∧
      getProp user "email" = some (.str "a@x.com") ∧
      getProp user "name" = some (.str "A") ∧
      getProp user "password" = none :=
  (signUp_then_signIn sampleEnv emptyWorld sampleSignUp "$2b$10$secret1"
    (by decide) rfl rfl rfl rfl).2

/-! ## What sign-in returns -/

/-- What `createUser` does to the rows: nothing, or it appends one row whose
email no stored row has. -/
theorem createUser_rows (env : Env) (w : World) (input : SignUp) :
    (createUser env w input).2.rows = w.rows ∨
    ((∀ r ∈ w.rows, r.email ≠ input.email) ∧
      ∃ h, (createUser env w input).2.rows = w.rows ++ [newRow w input h]) := by
  by_cases hreg : ∃ r ∈ w.rows, r.email = input.email
  · obtain ⟨e, he⟩ := createUser_registered env w input hreg
    left
    rw [he]
    rfl
  · have hfresh : ∀ r ∈ w.rows, r.email ≠ input.email := by
      intro r hr he
      exact hreg ⟨r, hr, he⟩
    cases hsel : env.dbError .selectByEmail with
    | some e =>
      left
      simp [createUser, createUser_try, dbSelectByEmail, hsel, World.emit]
    | none =>
      have hemp : (w.rows.filter (fun r => decide (r.email = input.email))).take 1 = [] :=
        select_empty w.rows _ (fun r hr => by simpa using hfresh r hr)
      cases hh : env.bcryptHash input.password 10 with
      | error e =>
        left
        simp [createUser, createUser_try, dbSelectByEmail, hashPassword, hsel, hemp, hh,
          World.emit]
      | ok h =>
        cases hins : env.dbError .insert with
        | some e =>
          left
          simp [createUser, createUser_try, dbSelectByEmail, hashPassword, dbInsert, hsel,
            hemp, hh, hins, World.emit]
        | none =>
          right
          refine ⟨hfresh, h, ?_⟩
          rw [createUser_fresh env w input h hfresh hsel hins hh]

/-- Unique emails are an invariant of `createUser`: the empty table has it
and every call, failing or not, keeps it. -/
theorem createUser_preserves_unique (env : Env) (w : World) (input : SignUp)
    (huniq : w.rows.Pairwise (fun a b => a.email ≠ b.email)) :
    (createUser env w input).2.rows.Pairwise (fun a b => a.email ≠ b.email) := by
  rcases createUser_rows env w input with h | ⟨hfresh, h, hrows⟩
  · rw [h]; exact huniq
  · rw [hrows, List.pairwise_append]
    refine ⟨huniq, List.pairwise_singleton _ _, ?_⟩
    intro a ha b hb
    rw [List.mem_singleton] at hb
    subst hb
    exact hfresh a ha

/-- C8: in the user table, whose emails are unique (the data model's
invariant, which `createUser` preserves), for every stored record `u` and
every password that `bcrypt.compare` accepts against `u.password`, when the
store answers the lookup, `authenticateUser` returns `u` without its password:
exactly the properties `id, name, email, role, createdAt, updatedAt` with the
stored values. -/
theorem authenticateUser_returns_record (env : Env) (w : World) (u : UserRow)
    (password : String) (hu : u ∈ w.rows)
    (huniq : w.rows.Pairwise (fun a b => a.email ≠ b.email))
    (hdb : env.dbError .selectByEmail = none)
    (hcmp : env.bcryptCompare password u.password = .ok true) :
    (authenticateUser env w u.email password).1 =
      .ok [("id", .num u.id), ("name", .str u.name), ("email", .str u.email),
           ("role", .str u.role), ("createdAt", .date u.createdAt),
           ("updatedAt", .date u.updatedAt)] ∧
    ∀ user, (authenticateUser env w u.email password).1 = .ok user →
      ∀ k, getProp user k = if k = "password" then none else getProp u.toObj k := by
  have hres : (authenticateUser env w u.email password).1
      = .ok (dropProp u.toObj "password") := by
    unfold authenticateUser
    rw [authenticateUser_try_eq env w u.email password hdb,
      lookupByEmail_of_unique w u hu huniq]
    simp [comparePassword, hcmp]
  refine ⟨by rw [hres]; rfl, ?_⟩
  intro user huser k
  rw [hres] at huser
  injection huser with huser
  rw [← huser]
  exact getProp_dropProp u.toObj "password" k

/-- C8, at an instance: signing in to the sample store. -/
theorem authenticateUser_returns_record_witness :
    (authenticateUser sampleEnv sampleWorld "a@x.com" "secret1").1 =
      .ok [("id", .num 1), ("name", .str "A"), ("email", .str "a@x.com"),
           ("role", .str "user"), ("createdAt", .date 0), ("updatedAt", .date 0)] :=
  (authenticateUser_returns_record sampleEnv sampleWorld
    { id := 1, name := "A", email := "a@x.com", password := "$2b$10$secret1",
      role := "user", createdAt := 0, updatedAt := 0 } "secret1"
    (by decide) (by simp [sampleWorld, createUser, createUser_try, dbSelectByEmail,
      hashPassword, dbInsert, sampleEnv, emptyWorld, sampleSignUp, World.emit]) rfl rfl).1

/-! ## No password leaves the services -/

theorem createUser_ok_shape (env : Env) (w : World) (input : SignUp) (v : Obj)
    (h : (createUser env w input).1 = .ok (some v)) :
    keys v = ["id", "name", "email", "role"] := by
  unfold createUser createUser_try dbSelectByEmail hashPassword dbInsert at h
  cases hsel : env.dbError .selectByEmail with
  | some e => simp [hsel] at h
  | none =>
    generalize hf : (w.rows.filter (fun r => decide (r.email = input.email))).take 1 = found
      at h
    cases found with
    | cons a rest => simp [hsel] at h
    | nil =>
      cases hh : env.bcryptHash input.password 10 with
      | error e => simp [hsel, hh] at h
      | ok hp =>
        cases hins : env.dbError .insert with
        | some e => simp [hsel, hh, hins] at h
        | none =>
          simp [hsel, hh, hins] at h
          rw [← h]
          rfl

theorem authenticateUser_ok_shape (env : Env) (w : World) (email password : String)
    (v : Obj) (h : (authenticateUser env w email password).1 = .ok v) :
    ∃ u ∈ w.rows, v = dropProp u.toObj "password" := by
  unfold authenticateUser at h
  cases hsel : env.dbError .selectByEmail with
  | some e =>
    simp [authenticateUser_try, dbSelectByEmail, hsel] at h
  | none =>
    rw [authenticateUser_try_eq env w email password hsel] at h
    cases hl : lookupByEmail w email with
    | none => simp [hl] at h
    | some u =>
      have hmem := (lookupByEmail_some_mem w email u hl).1
      refine ⟨u, hmem, ?_⟩
      simp only [hl, comparePassword] at h
      cases hc : env.bcryptCompare password u.password with
      | error e => simp [hc] at h
      | ok b =>
        cases b with
        | false => simp [hc] at h
        | true =>
          simp [hc] at h
          exact h.symm

/-- C10: whatever the store and the input, a value returned by `createUser`
or `authenticateUser` has no `password` property, and the list returned by
`getAllUsers` has one element per stored record, in order, made of that
record's `id, name, email, role, createdAt, updatedAt` and nothing else. -/
theorem no_password_returned (env : Env) (w : World) :
    (∀ input v, (createUser env w input).1 = .ok (some v) →
      keys v = ["id", "name", "email", "role"] ∧ getProp v "password" = none) ∧
    (∀ email password v, (authenticateUser env w email password).1 = .ok v →
      getProp v "password" = none) ∧
    (∀ users, (getAllUsers env w).1 = .ok users →
      users = w.rows.map (fun r =>
        [("id", .num r.id), ("name", .str r.name), ("email", .str r.email),
         ("role", .str r.role), ("createdAt", .date r.createdAt),
         ("updatedAt", .date r.updatedAt)]) ∧
      users.length = w.rows.length ∧
      ∀ o ∈ users, keys o = ["id", "name", "email", "role", "createdAt", "updatedAt"] ∧
        getProp o "password" = none) := by
  refine ⟨?_, ?_, ?_⟩
  · intro input v h
    have hk := createUser_ok_shape env w input v h
    refine ⟨hk, ?_⟩
    cases hnone : getProp v "password" with
    | none => rfl
    | some x =>
      exfalso
      have hmem : "password" ∈ keys v := by
        clear hk h
        induction v with
        | nil => simp [getProp] at hnone
        | cons kv rest ih =>
          obtain ⟨k', v'⟩ := kv
          by_cases hkk : k' = "password"
          · simp [keys, hkk]
          · have := ih (by simpa [getProp, hkk] using hnone)
            simp only [keys, List.map_cons, List.mem_cons]
            exact Or.inr this
      rw [hk] at hmem
      revert hmem
      decide
  · intro email password v h
    obtain ⟨u, _, hv⟩ := authenticateUser_ok_shape env w email password v h
    rw [hv]
    rfl
  · intro users h
    have hu : users = w.rows.map (fun r =>
        [("id", .num r.id), ("name", .str r.name), ("email", .str r.email),
         ("role", .str r.role), ("createdAt", .date r.createdAt),
         ("updatedAt", .date r.updatedAt)]) := by
      unfold getAllUsers dbSelectAll at h
      cases hsel : env.dbError .selectAll with
      | some e => simp [hsel] at h
      | none =>
        simp [hsel] at h
        exact h.symm
    refine ⟨hu, by rw [hu]; simp, ?_⟩
    intro o ho
    rw [hu] at ho
    obtain ⟨r, _, hr⟩ := List.mem_map.mp ho
    rw [← hr]
    exact ⟨rfl, rfl⟩

/-- C10, at an instance: the sample store lists one user, without password. -/
theorem no_password_returned_witness :
    (getAllUsers sampleEnv sampleWorld).1 =
      .ok [[("id", .num 1), ("name", .str "A"), ("email", .str "a@x.com"),
            ("role", .str "user"), ("createdAt", .date 0), ("updatedAt", .date 0)]] ∧
    ∀ o ∈ [[("id", Value.num 1), ("name", .str "A"), ("email", .str "a@x.com"),
            ("role", .str "user"), ("createdAt", .date 0), ("updatedAt", .date 0)]],
      keys o = ["id", "name", "email", "role", "createdAt", "updatedAt"] ∧
        getProp o "password" = none :=
  ⟨rfl, ((no_password_returned sampleEnv sampleWorld).2.2 _ rfl).2.2⟩

/-! ## Tokens -/

theorem ms_JWT_EXPIRES_IN : ms JWT_EXPIRES_IN = some 86400000 := by decide

theorem JWT_SECRET_ne_empty (env : Env) : JWT_SECRET env ≠ "" := by
  unfold JWT_SECRET
  cases env.JWT_SECRET with
  | none => decide
  | some s =>
    by_cases hs : s = ""
    · simp only [hs, if_true]; decide
    · simp [hs]

theorem getProp_setProp (o : Obj) (k : String) (v : Value) (j : String) :
    getProp (setProp o k v) j = if j = k then some v else getProp o j := by
  induction o with
  | nil =>
    by_cases hj : j = k
    · subst hj; simp [setProp, getProp]
    · have hj2 : ¬ k = j := fun e => hj e.symm
      simp [setProp, getProp, hj, hj2]
  | cons kv rest ih =>
    obtain ⟨k', v'⟩ := kv
    by_cases hk : k' = k
    · subst hk
      by_cases hj : j = k'
      · subst hj; simp [setProp, getProp]
      · have hj2 : ¬ k' = j := fun e => hj e.symm
        simp [setProp, getProp, hj, hj2]
    · by_cases hj : k' = j
      · subst hj; simp [setProp, getProp, hk]
      · simp only [setProp, hk, if_false, getProp, hj]
        exact ih

theorem getProp_jsonObj_some (o : Obj) (j : String) (v v' : Value)
    (h : getProp o j = some v) (hv : jsonValue v = some v') :
    getProp (jsonObj o) j = some v' := by
  induction o with
  | nil => simp [getProp] at h
  | cons kv rest ih =>
    obtain ⟨k', x⟩ := kv
    unfold jsonObj at ih ⊢
    by_cases hk : k' = j
    · subst hk
      have hx : x = v := by simpa [getProp] using h
      subst hx
      simp [List.filterMap_cons, hv, getProp]
    · have hrest : getProp rest j = some v := by simpa [getProp, hk] using h
      cases hx : jsonValue x with
      | none => simpa [List.filterMap_cons, hx] using ih hrest
      | some y => simpa [List.filterMap_cons, hx, getProp, hk] using ih hrest

theorem getProp_jsonObj_none (o : Obj) (j : String) (h : getProp o j = none) :
    getProp (jsonObj o) j = none := by
  induction o with
  | nil => simp [jsonObj, getProp]
  | cons kv rest ih =>
    obtain ⟨k', x⟩ := kv
    unfold jsonObj at ih ⊢
    have hk : ¬ k' = j := by
      intro hk; simp [getProp, hk] at h
    have hrest : getProp rest j = none := by simpa [getProp, hk] using h
    cases hx : jsonValue x with
    | none => simpa [List.filterMap_cons, hx] using ih hrest
    | some y => simpa [List.filterMap_cons, hx, getProp, hk] using ih hrest

theorem issuedAt_dropProp (c : Obj) (now : Nat) :
    issuedAt (dropProp c "__proto__") now = issuedAt c now := by
  unfold issuedAt
  rw [getProp_dropProp]
  simp

/-- Below `2^53` in magnitude an integer is the double that holds it. -/
theorem roundDouble_exact (n : Int) (h : n.natAbs < 2 ^ 53) : roundDouble n = n := by
  unfold roundDouble
  simp only [h, if_true]

/-- What `jwttoken.sign` returns when it accepts a claim set: the claims have
no `exp`, an `nbf` only if it is a number, and the token carries
`issuedPayload`, signed with the process secret. -/
theorem jwttoken_sign_ok (env : Env) (w : World) (c : Obj) (now : Nat) (tok : Token)
    (hsign : (jwttoken.sign env w c now).1 = .ok tok) :
    isNumberClaim c "nbf" = true ∧ getProp c "exp" = none ∧
    tok = .signed (issuedPayload c now) (env.hmac (JWT_SECRET env) (issuedPayload c now)) := by
  have hsec := JWT_SECRET_ne_empty env
  have hjs : ∃ t, jwtSign env.hmac c (JWT_SECRET env) JWT_EXPIRES_IN now = .ok t ∧ t = tok := by
    unfold jwttoken.sign at hsign
    cases hr : jwtSign env.hmac c (JWT_SECRET env) JWT_EXPIRES_IN now with
    | error e => simp [hr] at hsign
    | ok t => exact ⟨t, rfl, by simpa [hr] using hsign⟩
  obtain ⟨t, ht, htt⟩ := hjs
  subst htt
  unfold jwtSign at ht
  have hcopy : getProp (dropProp c "__proto__") "exp" = getProp c "exp" := by
    rw [getProp_dropProp]; simp
  simp only [hsec, if_false, hcopy, issuedAt_dropProp, ms_JWT_EXPIRES_IN] at ht
  cases hI : isNumberClaim c "iat" with
  | false => simp [hI] at ht
  | true =>
    cases hE : isNumberClaim c "exp" with
    | false => simp [hI, hE] at ht
    | true =>
      cases hN : isNumberClaim c "nbf" with
      | false => simp [hI, hE, hN] at ht
      | true =>
        cases hexp : getProp c "exp" with
        | some x => simp [hI, hE, hN, hexp] at ht
        | none =>
          refine ⟨rfl, rfl, ?_⟩
          simp only [hI, hE, hN, hexp, Bool.not_true, Option.isSome_none, if_false] at ht
          have h86 : ((86400000 / 1000 : Nat) : Int) = 86400 := by norm_num
          rw [h86] at ht
          simp at ht
          exact ht.symm

theorem getProp_issuedPayload_iat (c : Obj) (now : Nat) :
    getProp (issuedPayload c now) "iat" = some (.num (issuedAt c now)) := by
  unfold issuedPayload
  apply getProp_jsonObj_some _ _ (.num (issuedAt c now)) _ _ rfl
  rw [getProp_setProp, getProp_setProp]
  simp

theorem getProp_issuedPayload_exp (c : Obj) (now : Nat) :
    getProp (issuedPayload c now) "exp" = some (.num (expiresAt c now)) := by
  unfold issuedPayload
  apply getProp_jsonObj_some _ _ (.num (expiresAt c now)) _ _ rfl
  rw [getProp_setProp]
  simp

theorem getProp_issuedPayload_of_some (c : Obj) (now : Nat) (k : String) (v v' : Value)
    (hiat : k ≠ "iat") (hexp : k ≠ "exp") (hproto : k ≠ "__proto__")
    (h : getProp c k = some v) (hv : jsonValue v = some v') :
    getProp (issuedPayload c now) k = some v' := by
  unfold issuedPayload
  apply getProp_jsonObj_some _ _ v _ _ hv
  rw [getProp_setProp, getProp_setProp, getProp_dropProp]
  simp [hiat, hexp, hproto, h]

theorem getProp_issuedPayload_of_none (c : Obj) (now : Nat) (k : String)
    (hiat : k ≠ "iat") (hexp : k ≠ "exp") (h : getProp c k = none) :
    getProp (issuedPayload c now) k = none := by
  unfold issuedPayload
  apply getProp_jsonObj_none
  rw [getProp_setProp, getProp_setProp, getProp_dropProp]
  simp [hiat, hexp, h]

/-- Verifying an issued payload under the secret that signed it: it fails only
on an `nbf` still ahead or an `exp` reached. -/
theorem jwtVerify_issued (hmac : String → Obj → String) (secret : String) (c : Obj)
    (now later : Nat) (hsec : secret ≠ "") (hnum : isNumberClaim c "nbf" = true)
    (hnbf : ∀ n, getProp c "nbf" = some (.num n) → n ≤ (later : Int))
    (hlater : (later : Int) < expiresAt c now) :
    jwtVerify hmac (.signed (issuedPayload c now) (hmac secret (issuedPayload c now)))
      secret later = .ok (issuedPayload c now) := by
  have hexp := getProp_issuedPayload_exp c now
  have hlt : ¬ (expiresAt c now ≤ (later : Int)) := by omega
  unfold jwtVerify
  cases hn : getProp c "nbf" with
  | none =>
    have hP := getProp_issuedPayload_of_none c now "nbf" (by decide) (by decide) hn
    simp [hsec, hP, hexp, hlt]
  | some x =>
    cases x with
    | num n =>
      have hP := getProp_issuedPayload_of_some c now "nbf" (.num n) (.num n)
        (by decide) (by decide) (by decide) hn rfl
      have hle : ¬ ((later : Int) < n) := by
        have := hnbf n hn
        omega
      simp [hsec, hP, hexp, hlt, hle]
    | undefined => simp [isNumberClaim, hn] at hnum
    | null => simp [isNumberClaim, hn] at hnum
    | bool b => simp [isNumberClaim, hn] at hnum
    | str s => simp [isNumberClaim, hn] at hnum
    | date t => simp [isNumberClaim, hn] at hnum

/-- C5, as stated, fails on five counts, each at a claim set `jwttoken.sign`
accepts at time 1000, verified at time 2000 under the same secret. The claims
`id, email, role` come back with `iat` and `exp`, which they did not have.
Claims with an `nbf` ahead of the time of verification do not verify at all.
A claim whose value is `undefined` does not come back and a date comes back as
a string. An `iat` of zero comes back as the time of signing. A claim named
`__proto__` does not come back. -/
theorem jwt_roundtrip_counterexample :
    (∃ tok claims,
      (jwttoken.sign sampleEnv emptyWorld
        [("id", .num 1), ("email", .str "a@x.com"), ("role", .str "user")] 1000).1 = .ok tok ∧
      (jwttoken.verify sampleEnv emptyWorld tok 2000).1 = .ok claims ∧
      getProp claims "iat" = some (.num 1000) ∧ getProp claims "exp" = some (.num 87400) ∧
      getProp [("id", .num 1), ("email", .str "a@x.com"), ("role", .str "user")] "exp"
        = none) ∧
    (∃ tok,
      (jwttoken.sign sampleEnv emptyWorld [("id", .num 1), ("nbf", .num 5000)] 1000).1
        = .ok tok ∧
      (jwttoken.verify sampleEnv emptyWorld tok 2000).1
        = .error (mkError "Failed to verify JWT")) ∧
    (∃ tok claims,
      (jwttoken.sign sampleEnv emptyWorld
        [("id", .num 1), ("since", .date 0), ("nick", .undefined)] 1000).1 = .ok tok ∧
      (jwttoken.verify sampleEnv emptyWorld tok 2000).1 = .ok claims ∧
      getProp claims "since" = some (.str "1970-01-01T00:00:00.000Z") ∧
      getProp claims "nick" = none) ∧
    (∃ tok claims,
      (jwttoken.sign sampleEnv emptyWorld [("id", .num 1), ("iat", .num 0)] 1000).1
        = .ok tok ∧
      (jwttoken.verify sampleEnv emptyWorld tok 2000).1 = .ok claims ∧
      getProp claims "iat" = some (.num 1000)) ∧
    (∃ tok claims,
      (jwttoken.sign sampleEnv emptyWorld [("id", .num 1), ("__proto__", .str "x")] 1000).1
        = .ok tok ∧
      (jwttoken.verify sampleEnv emptyWorld tok 2000).1 = .ok claims ∧
      getProp claims "__proto__" = none) :=
  ⟨⟨_, _, rfl, rfl, rfl, rfl, rfl⟩, ⟨_, rfl, rfl⟩, ⟨_, _, rfl, rfl, rfl, rfl⟩,
   ⟨_, _, rfl, rfl, rfl⟩, ⟨_, _, rfl, rfl, rfl⟩⟩

/-- C5, amended: for every claim set `c` that `jwttoken.sign` accepts, signed
at time `now`, whose `nbf`, if it has one, is not ahead of the time of
verification: verifying the token under the same secret before its expiry
succeeds. The claims returned have `iat`, which is `c`'s own `iat` unless that
is absent or zero and then `now`, and `exp`, which is one day (86400 seconds)
after `iat`; every other claim of `c`, `__proto__` apart, is returned as JSON
carries its value (numbers, strings, booleans and `null` unchanged, a date as
its ISO string, `undefined` not at all), and no other claim is returned. -/
theorem jwt_roundtrip (env : Env) (w w1 : World) (c : Obj) (now later : Nat) (tok : Token)
    (hsign : (jwttoken.sign env w c now).1 = .ok tok)
    (hnbf : ∀ n, getProp c "nbf" = some (.num n) → n ≤ (later : Int))
    (hlater : (later : Int) < expiresAt c now) :
    ∃ claims, (jwttoken.verify env w1 tok later).1 = .ok claims ∧
      getProp claims "iat" = some (.num (issuedAt c now)) ∧
      getProp claims "exp" = some (.num (expiresAt c now)) ∧
      ((issuedAt c now + 86400).natAbs < 2 ^ 53 → expiresAt c now = issuedAt c now + 86400) ∧
      (∀ k v v', k ≠ "iat" → k ≠ "__proto__" → getProp c k = some v →
        jsonValue v = some v' → getProp claims k = some v') ∧
      (∀ k, k ≠ "iat" → k ≠ "exp" → getProp c k = none → getProp claims k = none) := by
  obtain ⟨hnum, hexp, htok⟩ := jwttoken_sign_ok env w c now tok hsign
  have hres : (jwttoken.verify env w1 tok later).1 = .ok (issuedPayload c now) := by
    subst htok
    unfold jwttoken.verify
    rw [jwtVerify_issued env.hmac (JWT_SECRET env) c now later (JWT_SECRET_ne_empty env)
      hnum hnbf hlater]
  refine ⟨issuedPayload c now, hres, getProp_issuedPayload_iat c now,
    getProp_issuedPayload_exp c now, fun h => roundDouble_exact _ h, ?_, ?_⟩
  · intro k v v' hiat hproto hk hv
    have hkexp : k ≠ "exp" := by
      intro e
      rw [e, hexp] at hk
      cases hk
    exact getProp_issuedPayload_of_some c now k v v' hiat hkexp hproto hk hv
  · intro k hiat hkexp hk
    exact getProp_issuedPayload_of_none c now k hiat hkexp hk

/-- C5, amended, at an instance: the claims `id, email, role` signed at time
1000 and verified at time 2000 come back, with `iat` 1000 and `exp` 87400. -/
theorem jwt_roundtrip_witness :
    ∃ claims,
      (jwttoken.verify sampleEnv emptyWorld
        (.signed [("id", .num 1), ("email", .str "a@x.com"), ("role", .str "user"),
                  ("iat", .num 1000), ("exp", .num 87400)]
          "secret-to-change-in-production|id,email,role,iat,exp") 2000).1 = .ok claims ∧
      getProp claims "id" = some (.num 1) ∧
      getProp claims "email" = some (.str "a@x.com") ∧
      getProp claims "role" = some (.str "user") ∧
      getProp claims "iat" = some (.num 1000) ∧
      getProp claims "exp" = some (.num 87400) := by
  obtain ⟨claims, hv, hiat, hexp, _, hkeep, _⟩ :=
    jwt_roundtrip sampleEnv emptyWorld emptyWorld
      [("id", .num 1), ("email", .str "a@x.com"), ("role", .str "user")] 1000 2000
      (.signed [("id", .num 1), ("email", .str "a@x.com"), ("role", .str "user"),
                ("iat", .num 1000), ("exp", .num 87400)]
        "secret-to-change-in-production|id,email,role,iat,exp")
      rfl (fun n h => by simp [getProp] at h) (by decide)
  exact ⟨claims, hv,
    hkeep "id" (.num 1) (.num 1) (by decide) (by decide) rfl rfl,
    hkeep "email" (.str "a@x.com") (.str "a@x.com") (by decide) (by decide) rfl rfl,
    hkeep "role" (.str "user") (.str "user") (by decide) (by decide) rfl rfl,
    hiat, hexp⟩


/-- C6: whenever the library's verification of a token fails, with whatever
error, `jwttoken.verify` throws the one error `Failed to verify JWT`, built
from the fixed message alone, and returns no value. -/
theorem jwttoken_verify_generic_error (env : Env) (w : World) (token : Token) (now : Nat)
    (e : JsError) (h : jwtVerify env.hmac token (JWT_SECRET env) now = .error e) :
    (jwttoken.verify env w token now).1 = .error (mkError "Failed to verify JWT") ∧
    ∀ claims, (jwttoken.verify env w token now).1 ≠ .ok claims := by
  have hres : (jwttoken.verify env w token now).1 = .error (mkError "Failed to verify JWT") := by
    unfold jwttoken.verify
    rw [h]
  refine ⟨hres, ?_⟩
  intro claims hc
  rw [hres] at hc
  cases hc

/-- C6, at an instance: a malformed token, a token with a wrong signature and
an expired token fail in the library with three different errors and in
`jwttoken.verify` with the same one. -/
theorem jwttoken_verify_generic_error_witness :
    (jwttoken.verify sampleEnv emptyWorld (.malformed "not-a-token") 2000).1
      = .error (mkError "Failed to verify JWT") ∧
    (jwttoken.verify sampleEnv emptyWorld (.signed [("id", .num 1)] "forged") 2000).1
      = .error (mkError "Failed to verify JWT") ∧
    (jwttoken.verify sampleEnv emptyWorld
      (.signed [("id", .num 1), ("iat", .num 1000), ("exp", .num 87400)]
        "secret-to-change-in-production|id,iat,exp") 87400).1
      = .error (mkError "Failed to verify JWT") :=
  ⟨(jwttoken_verify_generic_error sampleEnv emptyWorld (.malformed "not-a-token") 2000
      ⟨"JsonWebTokenError", "jwt malformed"⟩ rfl).1,
   (jwttoken_verify_generic_error sampleEnv emptyWorld (.signed [("id", .num 1)] "forged") 2000
      ⟨"JsonWebTokenError", "invalid signature"⟩ rfl).1,
   (jwttoken_verify_generic_error sampleEnv emptyWorld
      (.signed [("id", .num 1), ("iat", .num 1000), ("exp", .num 87400)]
        "secret-to-change-in-production|id,iat,exp") 87400
      ⟨"TokenExpiredError", "jwt expired"⟩ rfl).1⟩

/-! ## Cookies -/

/-- C7: `cookies.set` adds exactly one cookie to the response, with the given
name and value, and clears none; its options are the key-wise merge of the
fixed options with the overrides, the override winning wherever it defines the
key; the fixed options are `httpOnly: true`, `secure` (true exactly in
production), `maxAge: 900000` and `sameSite: strict`, and they are the options
used when there are no overrides. -/
theorem cookies_set_merges (env : Env) (res : Response) (name : String) (value : Value) :
    (∀ overrides : Option Obj, ∃ opts,
      cookies.set env res name value overrides =
        { setCookies := res.setCookies ++ [(name, value, opts)],
          clearedCookies := res.clearedCookies } ∧
      ∀ k, getProp opts k =
        match getProp (overrides.getD []) k with
        | some v => some v
        | none => getProp (cookies.getOptions env) k) ∧
    cookies.getOptions env =
      [("httpOnly", .bool true), ("secure", .bool (decide (env.NODE_ENV = some "production"))),
       ("maxAge", .num 900000), ("sameSite", .str "strict")] ∧
    (cookies.set env res name value none).setCookies =
      res.setCookies ++ [(name, value, cookies.getOptions env)] ∧
    (cookies.set env res name value (some [])).setCookies =
      res.setCookies ++ [(name, value, cookies.getOptions env)] ∧
    getProp (cookies.getOptions env) "maxAge" = some (.num 900000) ∧
    (getProp (cookies.getOptions env) "secure" = some (.bool true) ↔
      env.NODE_ENV = some "production") := by
  refine ⟨?_, rfl, ?_, ?_, rfl, ?_⟩
  · intro overrides
    exact ⟨spread (cookies.getOptions env) (overrides.getD []), rfl,
      fun k => getProp_spread _ _ k⟩
  · simp [cookies.set, Response.cookie, spread_nil]
  · simp [cookies.set, Response.cookie, spread_nil]
  · have hs : getProp (cookies.getOptions env) "secure"
        = some (.bool (decide (env.NODE_ENV = some "production"))) := rfl
    rw [hs]
    simp

end Acquisitions
